import Mathlib

/-!
Verification of the address-input field-configuration builder and validator
(`src/lib/libaddressinput.ts` of the address-input web component).

The TypeScript source is shallowly embedded: strings are `String`/`List Char`,
optional values (`undefined`) are `Option`, JavaScript truthiness on optional
strings is made explicit (`jsTruthyStr`), and the ECMAScript regular-expression
facility used by `validatePostalCode` is modelled by a small executable
parser/backtracking matcher covering the constructs appearing in postal-code
patterns (literals, escapes, character classes, groups, alternation,
quantifiers and the `^`/`$` assertions). The anchored pattern string
`^pattern$` built by the source is parsed exactly as ECMAScript parses it —
alternation binds lowest, so the prepended and appended anchors attach to
the first and last top-level alternative — and `test` searches the input
from every position. Parse failure stands for the `RegExp` constructor
throwing; escapes outside the modelled subset (word boundaries,
backreferences, code escapes) make the parse fail rather than being
silently reinterpreted.
JavaScript string operations (`toLowerCase`, `toUpperCase`, `trim`, `split`,
first-occurrence `replace`) are modelled for the ASCII range, which covers all
data these functions receive.
-/

/-! ### JavaScript string-primitive models -/

/-- Model of JavaScript truthiness for an optional string: `undefined` and the
empty string are falsy, every other string is truthy. -/
def jsTruthyStr : Option String → Bool
  | none => false
  | some s => !(decide (s = ""))

/-- ASCII model of `String.prototype.toLowerCase`. -/
def sLower (s : String) : String := String.mk (s.data.map Char.toLower)

/-- ASCII model of `String.prototype.toUpperCase`. -/
def sUpper (s : String) : String := String.mk (s.data.map Char.toUpper)

/-- Whitespace recognised by the model of `String.prototype.trim`
(space, tab, newline, carriage return, vertical tab, form feed). -/
def isTrimWs (c : Char) : Bool :=
  c = ' ' || c = '\t' || c = '\n' || c = '\r' || c = Char.ofNat 11 || c = Char.ofNat 12

/-- Model of `String.prototype.trim` (ASCII whitespace). -/
def jsTrim (s : String) : String :=
  String.mk (((s.data.dropWhile isTrimWs).reverse.dropWhile isTrimWs).reverse)

/-- Splitting a character list on the `'~'` delimiter, with JavaScript
`split` semantics: the empty string yields one empty field, a trailing
delimiter yields a trailing empty field. -/
def splitOnTilde : List Char → List (List Char)
  | [] => [[]]
  | c :: rest =>
    let r := splitOnTilde rest
    if c = '~' then [] :: r
    else
      match r with
      | f :: fs => (c :: f) :: fs
      | [] => [[c]]

/-- Model of `s.split('~')`. -/
def splitTilde (s : String) : List String := (splitOnTilde s.data).map String.mk

/-- Whether the first list is a prefix of the second. -/
def isPrefixList : List Char → List Char → Bool
  | [], _ => true
  | _ :: _, [] => false
  | a :: as, b :: bs => a = b && isPrefixList as bs

/-- Replace the first occurrence of `pat` in the list (helper for the model of
JavaScript `String.prototype.replace` with a string pattern). -/
def replaceFirstList (pat repl : List Char) : List Char → List Char
  | [] => []
  | c :: rest =>
    if isPrefixList pat (c :: rest) then repl ++ (c :: rest).drop pat.length
    else c :: replaceFirstList pat repl rest

/-- Model of `s.replace(pat, repl)` with a string (non-regex, non-empty)
pattern: only the first occurrence is replaced. -/
def jsReplaceFirst (s pat repl : String) : String :=
  String.mk (replaceFirstList pat.data repl.data s.data)

/-- Model of the JavaScript idiom `names[index] || key`: out-of-range access
yields `undefined` and the empty string is falsy, so both fall back to the
default. -/
def jsIndexOr (names : List String) (i : Nat) (dflt : String) : String :=
  match names.get? i with
  | some s => if s = "" then dflt else s
  | none => dflt

/-! ### Model of the ECMAScript regular expressions used for postal codes -/

/-- Left brace character (code point 123). -/
def lbrace : Char := Char.ofNat 123

/-- Right brace character (code point 125). -/
def rbrace : Char := Char.ofNat 125

/-- ECMAScript `\d`. -/
def jsIsDigit (c : Char) : Bool := '0' ≤ c && c ≤ '9'

/-- ECMAScript `\s` restricted to the ASCII range. -/
def jsIsSpace (c : Char) : Bool :=
  c = ' ' || c = '\t' || c = '\n' || c = '\r' || c = Char.ofNat 11 || c = Char.ofNat 12

/-- ECMAScript `\w`. -/
def jsIsWord (c : Char) : Bool := c.isAlphanum || c = '_'

/-- One alternative inside a character class. -/
inductive ClsItem
  | ch (c : Char)
  | range (lo hi : Char)
  | digit
  | space
  | word
  | notDigit
  | notSpace
  | notWord
deriving DecidableEq

/-- Abstract syntax of the supported regular-expression subset (`bol` and
`eol` are the `^` and `$` assertions). -/
inductive Regex
  | eps
  | ch (c : Char)
  | dot
  | bol
  | eol
  | cls (neg : Bool) (items : List ClsItem)
  | seq (a b : Regex)
  | alt (a b : Regex)
  | rep (a : Regex) (lo : Nat) (hi : Option Nat)
deriving DecidableEq

/-- Case-insensitive character comparison (the `i` flag). -/
def ciEq (a b : Char) : Bool := a.toLower = b.toLower

/-- Case-insensitive membership in a character-class range, matching the
`i`-flag canonicalisation behaviour on ASCII. -/
def inRangeCI (lo hi c : Char) : Bool :=
  (lo ≤ c && c ≤ hi) || (lo ≤ c.toLower && c.toLower ≤ hi) || (lo ≤ c.toUpper && c.toUpper ≤ hi)

/-- Whether a character matches one class item (case-insensitively). -/
def clsItemMatch (c : Char) : ClsItem → Bool
  | ClsItem.ch a => ciEq a c
  | ClsItem.range lo hi => inRangeCI lo hi c
  | ClsItem.digit => jsIsDigit c
  | ClsItem.space => jsIsSpace c
  | ClsItem.word => jsIsWord c
  | ClsItem.notDigit => !jsIsDigit c
  | ClsItem.notSpace => !jsIsSpace c
  | ClsItem.notWord => !jsIsWord c

/-- Whether a character matches a (possibly negated) character class. -/
def clsMatch (neg : Bool) (items : List ClsItem) (c : Char) : Bool :=
  let m := items.any (clsItemMatch c)
  if neg then !m else m

/-- ECMAScript `.`: any character except a line terminator. -/
def dotMatch (c : Char) : Bool :=
  !(c = '\n' || c = '\r' || c = Char.ofNat 0x2028 || c = Char.ofNat 0x2029)

/-- Mandatory repetitions of a quantifier: run the body matcher `lo`
times. -/
def repLoIter (ma : List Char → (List Char → Bool) → Bool) :
    Nat → List Char → (List Char → Bool) → Bool
  | 0, s, k => k s
  | l + 1, s, k => ma s (fun s2 => repLoIter ma l s2 k)

/-- Greedy bounded optional repetitions of a quantifier body. -/
def repOptIter (ma : List Char → (List Char → Bool) → Bool) :
    Nat → List Char → (List Char → Bool) → Bool
  | 0, s, k => k s
  | m + 1, s, k => ma s (fun s2 => repOptIter ma m s2 k) || k s

/-- Greedy unbounded repetition. Following the ECMAScript `RepeatMatcher`,
an iteration that consumes nothing ends the loop, so every iteration
strictly shrinks the input and an iteration budget of input length + 1 is
exact, not an approximation. -/
def starIter (ma : List Char → (List Char → Bool) → Bool) :
    Nat → List Char → (List Char → Bool) → Bool
  | 0, s, k => k s
  | n + 1, s, k =>
    ma s (fun s2 => if s2.length < s.length then starIter ma n s2 k else false) || k s

/-- Backtracking matcher in continuation-passing style over the remaining
input, mirroring ECMAScript matching: greedy repetition with backtracking,
`^` asserting position zero (the remaining input is the whole input, of
length `fl`), `$` asserting the end of the input. -/
def mtch (fl : Nat) : Regex → List Char → (List Char → Bool) → Bool
  | Regex.eps, s, k => k s
  | Regex.ch c, s, k =>
    match s with
    | [] => false
    | x :: rest => ciEq c x && k rest
  | Regex.dot, s, k =>
    match s with
    | [] => false
    | x :: rest => dotMatch x && k rest
  | Regex.bol, s, k => decide (s.length = fl) && k s
  | Regex.eol, s, k => s.isEmpty && k s
  | Regex.cls n its, s, k =>
    match s with
    | [] => false
    | x :: rest => clsMatch n its x && k rest
  | Regex.seq a b, s, k => mtch fl a s (fun s2 => mtch fl b s2 k)
  | Regex.alt a b, s, k => mtch fl a s k || mtch fl b s k
  | Regex.rep a lo hi, s, k =>
    repLoIter (fun s2 k2 => mtch fl a s2 k2) lo s (fun s2 =>
      match hi with
      | none => starIter (fun s3 k3 => mtch fl a s3 k3) (s2.length + 1) s2 k
      | some h => repOptIter (fun s3 k3 => mtch fl a s3 k3) (h - lo) s2 k)

/-- Try a match at the current position and at every later one, as
`RegExp.prototype.test` does for a non-sticky regex; a match may end
anywhere in the input. -/
def searchFrom (fl : Nat) (r : Regex) : List Char → Bool
  | [] => mtch fl r [] (fun _ => true)
  | c :: rest => mtch fl r (c :: rest) (fun _ => true) || searchFrom fl r rest

/-- Model of `re.test(s)` for a compiled regex: search the input from every
position. -/
def regexTest (r : Regex) (s : String) : Bool := searchFrom s.data.length r s.data

/-- An entity read inside a character class: a plain character or an escape
class such as `\d`. -/
inductive ClsEnt
  | plain (c : Char)
  | special (i : ClsItem)

/-- Read one entity inside a character class. Inside a class `\\b` is the
backspace character in ECMAScript; escaped letters and digits other than
the modelled escapes are outside the modelled subset and fail. -/
def readClsEnt : List Char → Option (ClsEnt × List Char)
  | [] => none
  | c :: rest =>
    if c = '\\' then
      match rest with
      | [] => none
      | e :: rest2 =>
        if e = 'd' then some (ClsEnt.special ClsItem.digit, rest2)
        else if e = 'D' then some (ClsEnt.special ClsItem.notDigit, rest2)
        else if e = 's' then some (ClsEnt.special ClsItem.space, rest2)
        else if e = 'S' then some (ClsEnt.special ClsItem.notSpace, rest2)
        else if e = 'w' then some (ClsEnt.special ClsItem.word, rest2)
        else if e = 'W' then some (ClsEnt.special ClsItem.notWord, rest2)
        else if e = 'n' then some (ClsEnt.plain '\n', rest2)
        else if e = 't' then some (ClsEnt.plain '\t', rest2)
        else if e = 'r' then some (ClsEnt.plain '\r', rest2)
        else if e = 'f' then some (ClsEnt.plain (Char.ofNat 12), rest2)
        else if e = 'v' then some (ClsEnt.plain (Char.ofNat 11), rest2)
        else if e = 'b' then some (ClsEnt.plain (Char.ofNat 8), rest2)
        else if e.isAlphanum then none
        else some (ClsEnt.plain e, rest2)
    else if c = ']' then none
    else some (ClsEnt.plain c, rest)

/-- Parse the items of a character class up to the closing `]`. -/
def parseClsItems : Nat → List Char → Option (List ClsItem × List Char)
  | 0, _ => none
  | fuel + 1, l =>
    match l with
    | [] => none
    | c :: rest =>
      if c = ']' then some ([], rest)
      else
        match readClsEnt l with
        | none => none
        | some (ent, rest1) =>
          match ent, rest1 with
          | ClsEnt.plain lo, '-' :: rest2 =>
            if rest2.head? = some ']' then
              match parseClsItems fuel rest1 with
              | some (is, r) => some (ClsItem.ch lo :: is, r)
              | none => none
            else
              match readClsEnt rest2 with
              | some (ClsEnt.plain hi, rest3) =>
                match parseClsItems fuel rest3 with
                | some (is, r) => some (ClsItem.range lo hi :: is, r)
                | none => none
              | _ => none
          | _, _ =>
            let item := match ent with
              | ClsEnt.plain c2 => ClsItem.ch c2
              | ClsEnt.special i => i
            match parseClsItems fuel rest1 with
            | some (is, r) => some (item :: is, r)
            | none => none

/-- The atom denoted by a backslash escape outside a character class.
Escaped letters and digits other than the escapes modelled here — for
example word boundaries, backreferences and code escapes — are outside the
modelled subset and make the parse fail; an escaped punctuation character
is an identity escape. -/
def escAtom (c : Char) : Option Regex :=
  if c = 'd' then some (Regex.cls false [ClsItem.digit])
  else if c = 'D' then some (Regex.cls true [ClsItem.digit])
  else if c = 's' then some (Regex.cls false [ClsItem.space])
  else if c = 'S' then some (Regex.cls true [ClsItem.space])
  else if c = 'w' then some (Regex.cls false [ClsItem.word])
  else if c = 'W' then some (Regex.cls true [ClsItem.word])
  else if c = 'n' then some (Regex.ch '\n')
  else if c = 't' then some (Regex.ch '\t')
  else if c = 'r' then some (Regex.ch '\r')
  else if c = 'f' then some (Regex.ch (Char.ofNat 12))
  else if c = 'v' then some (Regex.ch (Char.ofNat 11))
  else if c.isAlphanum then none
  else some (Regex.ch c)

/-- Consume a run of decimal digits, accumulating their value. -/
def readDigitsAux : List Char → Nat → Nat × List Char
  | [], acc => (acc, [])
  | c :: rest, acc =>
    if jsIsDigit c then readDigitsAux rest (acc * 10 + (c.toNat - '0'.toNat))
    else (acc, c :: rest)

/-- Read a decimal number (at least one digit). -/
def readNat : List Char → Option (Nat × List Char)
  | [] => none
  | c :: rest =>
    if jsIsDigit c then some (readDigitsAux (c :: rest) 0) else none

/-- Consume an optional laziness marker `?` after a quantifier (laziness does
not change anchored acceptance). -/
def eatLazy : List Char → List Char
  | [] => []
  | c :: rest => if c = '?' then rest else c :: rest

/-- Result of looking for a quantifier after an atom. -/
inductive QuantRes
  | noQ
  | q (lo : Nat) (hi : Option Nat) (rest : List Char)
  | bad

/-- Recognise `*`, `+`, `?` and the brace quantifiers. -/
def readQuant : List Char → QuantRes
  | [] => QuantRes.noQ
  | c :: rest =>
    if c = '*' then QuantRes.q 0 none (eatLazy rest)
    else if c = '+' then QuantRes.q 1 none (eatLazy rest)
    else if c = '?' then QuantRes.q 0 (some 1) (eatLazy rest)
    else if c = lbrace then
      match readNat rest with
      | none => QuantRes.bad
      | some (n, rest2) =>
        match rest2 with
        | [] => QuantRes.bad
        | c2 :: rest3 =>
          if c2 = rbrace then QuantRes.q n (some n) (eatLazy rest3)
          else if c2 = ',' then
            match rest3 with
            | [] => QuantRes.bad
            | c3 :: rest4 =>
              if c3 = rbrace then QuantRes.q n none (eatLazy rest4)
              else
                match readNat rest3 with
                | some (m, rest5) =>
                  match rest5 with
                  | [] => QuantRes.bad
                  | c4 :: rest6 =>
                    if c4 = rbrace then
                      (if m < n then QuantRes.bad else QuantRes.q n (some m) (eatLazy rest6))
                    else QuantRes.bad
                | none => QuantRes.bad
          else QuantRes.bad
    else QuantRes.noQ

/-- Combine a term with the rest of a sequence, avoiding a trailing `eps`. -/
def seqComb (a b : Regex) : Regex := if b = Regex.eps then a else Regex.seq a b

mutual

/-- Parse an alternation (`a|b|c`). -/
def parseAlt : Nat → List Char → Option (Regex × List Char)
  | 0, _ => none
  | fuel + 1, l =>
    match parseSeq fuel l with
    | none => none
    | some (r1, rest) =>
      match rest with
      | [] => some (r1, [])
      | c :: rest2 =>
        if c = '|' then
          match parseAlt fuel rest2 with
          | none => none
          | some (r2, rest3) => some (Regex.alt r1 r2, rest3)
        else some (r1, rest)

/-- Parse a sequence of terms, stopping at `|`, `)` or the end. -/
def parseSeq : Nat → List Char → Option (Regex × List Char)
  | 0, _ => none
  | fuel + 1, l =>
    match l with
    | [] => some (Regex.eps, [])
    | c :: _ =>
      if c = '|' || c = ')' then some (Regex.eps, l)
      else
        match parseTerm fuel l with
        | none => none
        | some (t, rest) =>
          match parseSeq fuel rest with
          | none => none
          | some (ts, rest2) => some (seqComb t ts, rest2)

/-- Parse one atom with its optional quantifier. -/
def parseTerm : Nat → List Char → Option (Regex × List Char)
  | 0, _ => none
  | fuel + 1, l =>
    match parseAtom fuel l with
    | none => none
    | some (a, rest) =>
      match readQuant rest with
      | QuantRes.noQ => some (a, rest)
      | QuantRes.q lo hi rest2 => some (Regex.rep a lo hi, rest2)
      | QuantRes.bad => none

/-- Parse one atom: a group, a character class, an escape, a dot, an
anchor assertion or a literal character; lookarounds, unsupported escapes
and stray metacharacters are rejected. -/
def parseAtom : Nat → List Char → Option (Regex × List Char)
  | 0, _ => none
  | fuel + 1, l =>
    match l with
    | [] => none
    | c :: rest =>
      if c = '(' then
        match rest with
        | '?' :: c2 :: rest2 =>
          if c2 = ':' then
            match parseAlt fuel rest2 with
            | none => none
            | some (r, rest3) =>
              match rest3 with
              | c3 :: rest4 => if c3 = ')' then some (r, rest4) else none
              | [] => none
          else none
        | _ =>
          match parseAlt fuel rest with
          | none => none
          | some (r, rest3) =>
            match rest3 with
            | c3 :: rest4 => if c3 = ')' then some (r, rest4) else none
            | [] => none
      else if c = '[' then
        match rest with
        | '^' :: rest2 =>
          match parseClsItems (fuel + 1) rest2 with
          | none => none
          | some (items, rest3) => some (Regex.cls true items, rest3)
        | _ =>
          match parseClsItems (fuel + 1) rest with
          | none => none
          | some (items, rest3) => some (Regex.cls false items, rest3)
      else if c = '\\' then
        match rest with
        | [] => none
        | e :: rest2 =>
          match escAtom e with
          | some a => some (a, rest2)
          | none => none
      else if c = '.' then some (Regex.dot, rest)
      else if c = '^' then some (Regex.bol, rest)
      else if c = '$' then some (Regex.eol, rest)
      else if c = ')' || c = '|' || c = '*' || c = '+' || c = '?' then none
      else some (Regex.ch c, rest)

end

/-- Parse a whole pattern; `none` models the `RegExp` constructor throwing on
an ill-formed (or unsupported) pattern. -/
def parseRegex (pat : String) : Option Regex :=
  let fuel := pat.data.length * 4 + 16
  match parseAlt fuel pat.data with
  | some (r, []) => some r
  | _ => none

/-- Model of `new RegExp("^" + pat + "$", "i").test(s)`: the literal
anchored pattern string is parsed — alternation binds lowest, so the
prepended `^` and appended `$` attach to the first and last top-level
alternative exactly as in ECMAScript — and the input is searched from every
position; `none` models the constructor throwing. -/
def jsRegexTestCI (pat : String) (s : String) : Option Bool :=
  (parseRegex ("^" ++ pat ++ "$")).map (fun r => regexTest r s)

/-! ### Data model (`src/types/address.ts`) -/

/-- The libaddressinput field abbreviations (`AddressField` in the source):
N name, O organisation, A street address line(s), C city, S administrative
area, Z postal code, X sorting code, D dependent locality. -/
inductive AddressField
  | N | O | A | C | S | Z | X | D
deriving DecidableEq, Fintype

/-- Keys of `AddressValue` in the source. -/
inductive AddressKey
  | country
  | name
  | organization
  | addressLine1
  | addressLine2
  | addressLine3
  | dependentLocality
  | city
  | administrativeArea
  | postalCode
  | sortingCode
deriving DecidableEq, Fintype

/-- A candidate address value (`Partial<AddressValue>` in the source): every
key optional, all string-valued. -/
structure AddressValue where
  country : Option String := none
  name : Option String := none
  organization : Option String := none
  addressLine1 : Option String := none
  addressLine2 : Option String := none
  addressLine3 : Option String := none
  dependentLocality : Option String := none
  city : Option String := none
  administrativeArea : Option String := none
  postalCode : Option String := none
  sortingCode : Option String := none
deriving DecidableEq

/-- The dynamic property lookup `value[field.key]` of the source. -/
def AddressValue.get (v : AddressValue) : AddressKey → Option String
  | AddressKey.country => v.country
  | AddressKey.name => v.name
  | AddressKey.organization => v.organization
  | AddressKey.addressLine1 => v.addressLine1
  | AddressKey.addressLine2 => v.addressLine2
  | AddressKey.addressLine3 => v.addressLine3
  | AddressKey.dependentLocality => v.dependentLocality
  | AddressKey.city => v.city
  | AddressKey.administrativeArea => v.administrativeArea
  | AddressKey.postalCode => v.postalCode
  | AddressKey.sortingCode => v.sortingCode

/-- Input kind of a rendered field (`'text' | 'select' | 'textarea'`). -/
inductive FieldType
  | text
  | select
  | textarea
deriving DecidableEq

/-- Relative display width (`'full' | 'half' | 'third' | 'quarter'`). -/
inductive Width
  | full
  | half
  | third
  | quarter
deriving DecidableEq

/-- One selectable subdivision option (`{ value, label }`). -/
structure SubOption where
  value : String
  label : String
deriving DecidableEq

/-- One render-ready field description (`FieldConfig` in the source). -/
structure FieldConfig where
  key : AddressKey
  label : String
  required : Bool
  visible : Bool
  type : FieldType
  options : Option (List SubOption) := none
  pattern : Option String := none
  placeholder : Option String := none
  width : Width
deriving DecidableEq

/-- The per-country metadata record (`GoogleAddressMetadata`), restricted to
the properties the embedded functions read; all are optional strings. -/
structure GoogleAddressMetadata where
  fmt : Option String := none
  require : Option String := none
  zip : Option String := none
  sub_keys : Option String := none
  sub_names : Option String := none
  sub_lnames : Option String := none
  state_name_type : Option String := none
  zip_name_type : Option String := none
  sublocality_name_type : Option String := none
  id : Option String := none
deriving DecidableEq

/-- The display options of `buildFieldConfig` (`showName`, `showOrganization`),
with the `undefined`-is-falsy default. -/
structure BuildOptions where
  showName : Bool := false
  showOrganization : Bool := false
deriving DecidableEq, Fintype

/-- The result of `validateAddress`. -/
structure ValidationResult where
  valid : Bool
  errors : List String
deriving DecidableEq

/-! ### Field-configuration builder (`src/lib/libaddressinput.ts`) -/

/-- The capture class `[NOACSZXD]` of the `fieldPattern` regex. -/
def charToField (c : Char) : Option AddressField :=
  if c = 'N' then some AddressField.N
  else if c = 'O' then some AddressField.O
  else if c = 'A' then some AddressField.A
  else if c = 'C' then some AddressField.C
  else if c = 'S' then some AddressField.S
  else if c = 'Z' then some AddressField.Z
  else if c = 'X' then some AddressField.X
  else if c = 'D' then some AddressField.D
  else none

/-- The `if (!fields.includes(field)) fields.push(field)` step of
`parseFmtString`. -/
def pushNew (f : AddressField) (acc : List AddressField) : List AddressField :=
  if f ∈ acc then acc else acc ++ [f]

/-- Scan of the format string by the global regex `/%([NOACSZXD])/g`:
`%` followed by a field letter consumes both characters and records the
letter (first occurrence only); any other character is skipped. -/
def parseFmtChars : List Char → List AddressField → List AddressField
  | [], acc => acc
  | c :: rest, acc =>
    if c = '%' then
      match rest with
      | [] => acc
      | c2 :: rest2 =>
        match charToField c2 with
        | some f => parseFmtChars rest2 (pushNew f acc)
        | none => parseFmtChars (c2 :: rest2) acc
    else parseFmtChars rest acc

/-- Embedding of `parseFmtString`: the distinct field letters of a format
string in order of first appearance. -/
def parseFmtString (fmt : String) : List AddressField := parseFmtChars fmt.data []

/-- Embedding of `getFieldWidth`. -/
def getFieldWidth : AddressField → Width
  | AddressField.A => Width.full
  | AddressField.C => Width.half
  | AddressField.S => Width.quarter
  | AddressField.Z => Width.quarter
  | AddressField.N => Width.full
  | AddressField.O => Width.full
  | AddressField.D => Width.half
  | AddressField.X => Width.quarter

/-- Embedding of `getStateLabel`: `state_name_type` lowercased (falling back
to `province` when absent or empty) looked up in a fixed vocabulary, with
default `State/Province`. -/
def getStateLabel (md : GoogleAddressMetadata) : String :=
  let t := match md.state_name_type with
    | none => "province"
    | some s => if sLower s = "" then "province" else sLower s
  if t = "state" then "State"
  else if t = "province" then "Province"
  else if t = "county" then "County"
  else if t = "island" then "Island"
  else if t = "prefecture" then "Prefecture"
  else if t = "region" then "Region"
  else if t = "department" then "Department"
  else if t = "district" then "District"
  else if t = "do_si" then "Do/Si"
  else if t = "emirate" then "Emirate"
  else if t = "oblast" then "Oblast"
  else if t = "parish" then "Parish"
  else if t = "governorate" then "Governorate"
  else if t = "area" then "Area"
  else if t = "territory" then "Territory"
  else "State/Province"

/-- Embedding of `getSublocalityLabel`: the Iran override first, then the
lowercased `sublocality_name_type` looked up in a fixed vocabulary, with
default `District`. -/
def getSublocalityLabel (md : GoogleAddressMetadata) : String :=
  let countryCode := md.id.map (fun s => jsReplaceFirst s "data/" "")
  if countryCode = some "IR" then "District"
  else
    match md.sublocality_name_type.map sLower with
    | some t =>
      if t = "neighborhood" then "Neighborhood"
      else if t = "district" then "District"
      else if t = "suburb" then "Suburb"
      else if t = "village_township" then "Village/Township"
      else if t = "ward" then "Ward"
      else "District"
    | none => "District"

/-- Embedding of `getPostalLabel`: the lowercased `zip_name_type` first,
then country-code fallbacks on the uppercased `id`, then `Postal Code`. -/
def getPostalLabel (md : GoogleAddressMetadata) : String :=
  if md.zip_name_type.map sLower = some "pin" then "PIN Code"
  else if md.zip_name_type.map sLower = some "postal" then "Postal Code"
  else if md.zip_name_type.map sLower = some "zip" then "ZIP Code"
  else if md.zip_name_type.map sLower = some "eircode" then "Eircode"
  else if md.id.map sUpper = some "US" then "ZIP Code"
  else if md.id.map sUpper = some "IE" then "Eircode"
  else if md.id.map sUpper = some "IN" then "PIN Code"
  else "Postal Code"

/-- Embedding of `getFieldLabel` (the `isNameField` argument receives
`options.showName` at the call site in `buildFieldConfig`). -/
def getFieldLabel (field : AddressField) (md : GoogleAddressMetadata)
    (isNameField : Bool) : String :=
  match field with
  | AddressField.N => if isNameField then "Full Name" else "Name"
  | AddressField.O => "Organization"
  | AddressField.A => "Street Address"
  | AddressField.C => "City"
  | AddressField.S => getStateLabel md
  | AddressField.Z => getPostalLabel md
  | AddressField.D => getSublocalityLabel md
  | AddressField.X => "Sorting Code"

/-- Embedding of `parseSubdivisions`: requires both `sub_keys` and
`sub_names` to be truthy; names come from `sub_lnames` whenever it is
present (optional chaining), else from `sub_names`; the option value is
`names[index] || key` when `sub_lnames` is truthy and the key otherwise. -/
def parseSubdivisions (md : GoogleAddressMetadata) : Option (List SubOption) :=
  if !(jsTruthyStr md.sub_keys) || !(jsTruthyStr md.sub_names) then none
  else
    let keys := splitTilde (md.sub_keys.getD "")
    let names := match md.sub_lnames with
      | some s => splitTilde s
      | none => splitTilde (md.sub_names.getD "")
    some (keys.enum.map (fun p =>
      { value := if jsTruthyStr md.sub_lnames then jsIndexOr names p.1 p.2 else p.2
        label := jsIndexOr names p.1 p.2 }))

/-- Embedding of `mapFieldToKey` (`A` is handled separately in the loop). -/
def mapFieldToKey : AddressField → Option AddressKey
  | AddressField.N => some AddressKey.name
  | AddressField.O => some AddressKey.organization
  | AddressField.A => none
  | AddressField.C => some AddressKey.city
  | AddressField.S => some AddressKey.administrativeArea
  | AddressField.Z => some AddressKey.postalCode
  | AddressField.X => some AddressKey.sortingCode
  | AddressField.D => some AddressKey.dependentLocality

/-- The one-character string a field letter contributes to the required-fields
check (`requiredFields.includes(field)`). -/
def fieldChar : AddressField → Char
  | AddressField.N => 'N'
  | AddressField.O => 'O'
  | AddressField.A => 'A'
  | AddressField.C => 'C'
  | AddressField.S => 'S'
  | AddressField.Z => 'Z'
  | AddressField.X => 'X'
  | AddressField.D => 'D'

/-- Embedding of the source expression splitting the required-fields string
into characters: the list of characters of `metadata.require` or of the
empty string. -/
def requiredFieldsOf (md : GoogleAddressMetadata) : List Char :=
  (md.require.getD "").data

/-- The fixed allow-list of countries given a third address line. -/
def line3Countries : List String :=
  ["JP", "CN", "TW", "KR", "VN", "ID", "TH", "PH", "MY", "SG"]

/-- The `needsAddressLine3` computation of `buildFieldConfig`: the `id` with a
leading `data/` removed, defaulted to the empty string, tested against the
allow-list. -/
def needsAddressLine3 (md : GoogleAddressMetadata) : Bool :=
  line3Countries.contains ((md.id.map (fun s => jsReplaceFirst s "data/" "")).getD "")

/-- The address-line keys pushed for the `A` placeholder (`addressFields` in
the source): three lines for allow-listed countries, two otherwise. -/
def addrKeysFor (needs3 : Bool) : List AddressKey :=
  if needs3 then [AddressKey.addressLine1, AddressKey.addressLine2, AddressKey.addressLine3]
  else [AddressKey.addressLine1, AddressKey.addressLine2]

/-- The address-line entry literal pushed inside the `A` branch of
`buildFieldConfig`. -/
def mkAddressLineEntry (reqFields : List Char) (k : AddressKey) : FieldConfig :=
  { key := k
    label := if k = AddressKey.addressLine1 then "Street Address" else "Apartment, suite, etc."
    required := decide (k = AddressKey.addressLine1) && reqFields.contains 'A'
    visible := true
    type := FieldType.text
    width := Width.full
    placeholder := some (if k = AddressKey.addressLine1 then "123 Main St" else "Apt 4B") }

/-- The generic entry literal pushed for a non-address field in
`buildFieldConfig`. -/
def mkFieldEntry (md : GoogleAddressMetadata) (opts : BuildOptions)
    (field : AddressField) (fieldKey : AddressKey) : FieldConfig :=
  let subdivisions := if field = AddressField.S then parseSubdivisions md else none
  { key := fieldKey
    label := getFieldLabel field md opts.showName
    required := (requiredFieldsOf md).contains (fieldChar field)
    visible := true
    type := if subdivisions.isSome then FieldType.select else FieldType.text
    options := subdivisions
    pattern := if field = AddressField.Z then md.zip else none
    width := getFieldWidth field }

/-- The inner loop of the `A` branch: push each address-line key not yet in
`addressLinesAdded`, threading the added list. -/
def addAddressLines (reqFields : List Char) :
    List AddressKey → List AddressKey → List FieldConfig × List AddressKey
  | [], added => ([], added)
  | k :: ks, added =>
    if k ∈ added then addAddressLines reqFields ks added
    else
      let r := addAddressLines reqFields ks (added ++ [k])
      (mkAddressLineEntry reqFields k :: r.1, r.2)

/-- The main loop of `buildFieldConfig` over the visible fields: the `A`
branch expands to address lines, name and organisation are skipped unless
requested, fields without a key mapping are skipped, and every other field
pushes one entry. -/
def buildLoop (md : GoogleAddressMetadata) (opts : BuildOptions) (needs3 : Bool) :
    List AddressField → List AddressKey → List FieldConfig
  | [], _ => []
  | field :: rest, added =>
    if field = AddressField.A then
      let r := addAddressLines (requiredFieldsOf md) (addrKeysFor needs3) added
      r.1 ++ buildLoop md opts needs3 rest r.2
    else if field = AddressField.N ∧ opts.showName = false then
      buildLoop md opts needs3 rest added
    else if field = AddressField.O ∧ opts.showOrganization = false then
      buildLoop md opts needs3 rest added
    else
      match mapFieldToKey field with
      | none => buildLoop md opts needs3 rest added
      | some fieldKey => mkFieldEntry md opts field fieldKey :: buildLoop md opts needs3 rest added

/-- The default format template used when the metadata has no format string. -/
def defaultFmt : String := "%N%n%O%n%A%n%C %Z"

/-- Embedding of the source expression choosing the format string:
the metadata's own when truthy, else the default template. -/
def effectiveFmt (md : GoogleAddressMetadata) : String :=
  if jsTruthyStr md.fmt then md.fmt.getD "" else defaultFmt

/-- Embedding of `buildFieldConfig`. -/
def buildFieldConfig (md : GoogleAddressMetadata) (opts : BuildOptions) : List FieldConfig :=
  buildLoop md opts (needsAddressLine3 md) (parseFmtString (effectiveFmt md)) []

/-! ### Validator (`src/lib/libaddressinput.ts`) -/

/-- Embedding of `validatePostalCode`: an untruthy pattern is always valid,
an empty value against a truthy pattern is invalid, otherwise the anchored
case-insensitive test runs (the source's Java-to-JavaScript replace chain is
the identity); a pattern the `RegExp` constructor rejects falls back to
accepting any non-empty value. -/
def validatePostalCode (postalCode : String) (pattern : Option String) : Bool :=
  if !(jsTruthyStr pattern) then true
  else if postalCode = "" then false
  else
    match jsRegexTestCI (pattern.getD "") postalCode with
    | some b => b
    | none => decide (0 < postalCode.data.length)

/-- The `!fieldValue || fieldValue.trim() === ''` test of `validateAddress`. -/
def fieldMissing : Option String → Bool
  | none => true
  | some s => decide (s = "") || decide (jsTrim s = "")

/-- The error-collecting loop of `validateAddress`, in schema order. -/
def validateLoop (value : AddressValue) : List FieldConfig → List String
  | [] => []
  | field :: rest =>
    if field.visible = false then validateLoop value rest
    else if field.required && fieldMissing (value.get field.key) then
      (field.label ++ " is required") :: validateLoop value rest
    else if field.key = AddressKey.postalCode ∧ jsTruthyStr field.pattern
        ∧ jsTruthyStr (value.get field.key) then
      if validatePostalCode ((value.get field.key).getD "") field.pattern then
        validateLoop value rest
      else ("Invalid " ++ sLower field.label ++ " format") :: validateLoop value rest
    else validateLoop value rest

/-- Embedding of `validateAddress`. -/
def validateAddress (value : AddressValue) (fields : List FieldConfig) : ValidationResult :=
  { valid := (validateLoop value fields).length == 0
    errors := validateLoop value fields }

/-! ### Specification-side definitions used to state the claims -/

/-- Number of entries of a schema carrying a given key. -/
def countKey (k : AddressKey) (fs : List FieldConfig) : Nat :=
  fs.countP (fun e => decide (e.key = k))

/-- Whether processing the field letter `f` pushes an entry with key `k`
(non-address-line letters only): the letter must map to `k` and must not be
skipped by the name/organisation options. -/
def emitsKey (opts : BuildOptions) (k : AddressKey) (f : AddressField) : Bool :=
  match mapFieldToKey f with
  | some k2 =>
    decide (k2 = k) && !(decide (f = AddressField.N) && !opts.showName)
      && !(decide (f = AddressField.O) && !opts.showOrganization)
  | none => false

/-- The claim's "zip name type absent or unrecognized" condition. -/
def zipUnrecognized (md : GoogleAddressMetadata) : Prop :=
  ¬ (md.zip_name_type.map sLower = some "pin" ∨ md.zip_name_type.map sLower = some "postal"
     ∨ md.zip_name_type.map sLower = some "zip" ∨ md.zip_name_type.map sLower = some "eircode")

instance (md : GoogleAddressMetadata) : Decidable (zipUnrecognized md) := by
  unfold zipUnrecognized; infer_instance

/-- Subdivision options as the specification words them: keys split on the
delimiter; names from the Latin-script name list when present, else from the
plain name list; each value is the Latin name (or the key when no name is
present) for non-Latin-script countries (those with a Latin name list), and
the key itself for Latin-script countries. -/
def specSubdivisionOptions (md : GoogleAddressMetadata) : List SubOption :=
  let keys := splitTilde (md.sub_keys.getD "")
  let latinNamesPresent := md.sub_lnames.isSome
  let names := if latinNamesPresent then splitTilde (md.sub_lnames.getD "")
    else splitTilde (md.sub_names.getD "")
  keys.enum.map (fun p =>
    { value := if latinNamesPresent then jsIndexOr names p.1 p.2 else p.2
      label := jsIndexOr names p.1 p.2 })

/-- The error contributed by a single schema entry, as the specification
describes the validator: nothing for an invisible entry; a required-field
message for a required entry whose value is missing or blank (taking
precedence over, and suppressing, the pattern check); a format message for a
postal-code entry whose truthy value fails its truthy pattern; nothing
otherwise. -/
def entryError (value : AddressValue) (field : FieldConfig) : Option String :=
  if field.visible = false then none
  else if field.required && fieldMissing (value.get field.key) then
    some (field.label ++ " is required")
  else if field.key = AddressKey.postalCode ∧ jsTruthyStr field.pattern
      ∧ jsTruthyStr (value.get field.key) then
    if validatePostalCode ((value.get field.key).getD "") field.pattern then none
    else some ("Invalid " ++ sLower field.label ++ " format")
  else none

/-- The validator loop with the visibility filter removed (used to state that
the filter never skips a builder-produced entry). -/
def validateLoopNoVis (value : AddressValue) : List FieldConfig → List String
  | [] => []
  | field :: rest =>
    if field.required && fieldMissing (value.get field.key) then
      (field.label ++ " is required") :: validateLoopNoVis value rest
    else if field.key = AddressKey.postalCode ∧ jsTruthyStr field.pattern
        ∧ jsTruthyStr (value.get field.key) then
      if validatePostalCode ((value.get field.key).getD "") field.pattern then
        validateLoopNoVis value rest
      else ("Invalid " ++ sLower field.label ++ " format") :: validateLoopNoVis value rest
    else validateLoopNoVis value rest

/-- Variant of `validateAddress` with the visibility filter removed. -/
def validateAddressIgnoringVisibility (value : AddressValue)
    (fields : List FieldConfig) : ValidationResult :=
  { valid := (validateLoopNoVis value fields).length == 0
    errors := validateLoopNoVis value fields }

/-! ### Concrete data used in counterexamples and witnesses -/

/-- The empty options record (`{}` at the TypeScript call site). -/
def defaultOptions : BuildOptions := {}

/-- A metadata record with no properties at all. -/
def mdEmptyMeta : GoogleAddressMetadata := {}

/-- A metadata record whose format string has a name placeholder only. -/
def mdFmtNameOnly : GoogleAddressMetadata := { fmt := some "%N" }

/-- A metadata record providing subdivision keys but no subdivision names. -/
def mdSubKeysNoNames : GoogleAddressMetadata := { fmt := some "%S", sub_keys := some "CA~NY" }

/-- A metadata record providing subdivision keys and names (Latin script). -/
def mdSubNames : GoogleAddressMetadata :=
  { fmt := some "%S", sub_keys := some "CA~NY", sub_names := some "California~New York" }

/-- A metadata record for an allow-listed country with no format string. -/
def mdJPNoFmt : GoogleAddressMetadata := { id := some "JP" }

/-- A metadata record whose zip name type is `PIN`. -/
def mdZipPin : GoogleAddressMetadata := { zip_name_type := some "PIN" }

/-- A metadata record whose id identifies the US, with no zip name type. -/
def mdIdUS : GoogleAddressMetadata := { id := some "us" }

/-- The city entry produced for the city placeholder of the default template
on an empty metadata record. -/
def entryCityDefault : FieldConfig :=
  { key := AddressKey.city
    label := "City"
    required := false
    visible := true
    type := FieldType.text
    options := none
    pattern := none
    placeholder := none
    width := Width.half }

/-- A schema consisting of one visible required city field. -/
def requiredCityField : FieldConfig :=
  { key := AddressKey.city
    label := "City"
    required := true
    visible := true
    type := FieldType.text
    options := none
    pattern := none
    placeholder := none
    width := Width.half }

/-- An address value with no keys present. -/
def emptyAddressValue : AddressValue := {}

/-! ### Structural lemmas about the builder -/

/-- The format-string scan never records a field letter twice. -/
theorem parseFmtChars_nodup (l : List Char) (acc : List AddressField) :
    acc.Nodup → (parseFmtChars l acc).Nodup := by
  induction l, acc using parseFmtChars.induct with
  | case1 acc => intro h; simpa [parseFmtChars] using h
  | case2 acc => intro h; simpa [parseFmtChars] using h
  | case3 acc c2 rest2 f hf ih =>
    intro h
    simp only [parseFmtChars, hf, if_pos rfl]
    exact ih (by
      by_cases hmem : f ∈ acc
      · simpa [pushNew, hmem] using h
      · simp [pushNew, hmem, List.nodup_append, h])
  | case4 acc c2 rest2 hf ih =>
    intro h
    simp only [parseFmtChars, hf, if_pos rfl]
    exact ih h
  | case5 c rest acc hc ih =>
    intro h
    rw [parseFmtChars.eq_def]
    simp only [if_neg hc]
    exact ih h

/-- The visible-field list of a format string has no duplicates. -/
theorem parseFmtString_nodup (fmt : String) : (parseFmtString fmt).Nodup :=
  parseFmtChars_nodup fmt.data [] (by simp)

theorem countKey_nil (k : AddressKey) : countKey k [] = 0 := rfl

theorem countKey_cons (k : AddressKey) (e : FieldConfig) (fs : List FieldConfig) :
    countKey k (e :: fs) = countKey k fs + (if e.key = k then 1 else 0) := by
  simp [countKey, List.countP_cons]

theorem countKey_append (k : AddressKey) (fs gs : List FieldConfig) :
    countKey k (fs ++ gs) = countKey k fs + countKey k gs := by
  simp [countKey, List.countP_append]

theorem countKey_eq_zero (k : AddressKey) (fs : List FieldConfig) :
    countKey k fs = 0 ↔ ∀ e ∈ fs, ¬ e.key = k := by
  simp [countKey, List.countP_eq_zero]

theorem countKey_pos (k : AddressKey) (fs : List FieldConfig) :
    0 < countKey k fs ↔ ∃ e ∈ fs, e.key = k := by
  simp [countKey, List.countP_pos_iff]

theorem mkAddressLineEntry_key (req : List Char) (k : AddressKey) :
    (mkAddressLineEntry req k).key = k := rfl

theorem mkFieldEntry_key (md : GoogleAddressMetadata) (opts : BuildOptions)
    (f : AddressField) (k : AddressKey) : (mkFieldEntry md opts f k).key = k := rfl

/-- The field-to-key mapping never produces an address-line key. -/
theorem mapFieldToKey_not_addr : ∀ (f : AddressField) (k : AddressKey),
    mapFieldToKey f = some k →
    ¬ (k = AddressKey.addressLine1 ∨ k = AddressKey.addressLine2 ∨ k = AddressKey.addressLine3) := by
  decide

/-- The field-to-key mapping is injective on the letters it maps. -/
theorem mapFieldToKey_inj : ∀ (f g : AddressField) (k : AddressKey),
    mapFieldToKey f = some k → mapFieldToKey g = some k → f = g := by
  decide

/-- Every entry produced by the address-line inner loop is an address-line
entry for one of the requested keys. -/
theorem addAddressLines_fst_mem (req : List Char) :
    ∀ (ks added : List AddressKey) (e : FieldConfig), e ∈ (addAddressLines req ks added).1 →
      ∃ k, k ∈ ks ∧ e = mkAddressLineEntry req k := by
  intro ks
  induction ks with
  | nil => intro added e he; simp [addAddressLines] at he
  | cons k0 ks ih =>
    intro added e he
    by_cases hk : k0 ∈ added
    · rw [addAddressLines, if_pos hk] at he
      obtain ⟨k, hkks, hek⟩ := ih added e he
      exact ⟨k, List.mem_cons_of_mem _ hkks, hek⟩
    · rw [addAddressLines, if_neg hk] at he
      rcases List.mem_cons.mp he with he0 | heRest
      · exact ⟨k0, List.mem_cons_self _ _, he0⟩
      · obtain ⟨k, hkks, hek⟩ := ih (added ++ [k0]) e heRest
        exact ⟨k, List.mem_cons_of_mem _ hkks, hek⟩

/-- Exact count of entries with a given key produced by the address-line
inner loop. -/
theorem addAddressLines_countKey (req : List Char) (k : AddressKey) :
    ∀ (ks added : List AddressKey), ks.Nodup →
      countKey k (addAddressLines req ks added).1 = if k ∈ ks ∧ ¬ k ∈ added then 1 else 0 := by
  intro ks
  induction ks with
  | nil => intro added _; simp [addAddressLines, countKey_nil]
  | cons k0 ks ih =>
    intro added hnd
    have hnd' : ks.Nodup := hnd.of_cons
    have hk0ks : ¬ k0 ∈ ks := (List.nodup_cons.mp hnd).1
    by_cases hk : k0 ∈ added
    · rw [addAddressLines, if_pos hk, ih added hnd']
      by_cases hkk0 : k = k0
      · subst hkk0; simp [hk, hk0ks]
      · simp [List.mem_cons, hkk0]
    · rw [addAddressLines, if_neg hk]
      simp only
      rw [countKey_cons, ih (added ++ [k0]) hnd', mkAddressLineEntry_key]
      by_cases hkk0 : k0 = k
      · subst hkk0
        simp [hk0ks, hk]
      · have hkne : ¬ k = k0 := fun h => hkk0 h.symm
        have h1 : k ∈ added ++ [k0] ↔ k ∈ added := by simp [hkne]
        have h2 : k ∈ k0 :: ks ↔ k ∈ ks := by simp [List.mem_cons, hkne]
        simp only [h1, h2, if_neg hkk0, add_zero]

/-- Every entry produced by the builder loop is either an address-line entry
or the generic entry of a field letter occurring in the list. -/
theorem buildLoop_shape (md : GoogleAddressMetadata) (opts : BuildOptions) (n3 : Bool) :
    ∀ (fields : List AddressField) (added : List AddressKey) (e : FieldConfig),
      e ∈ buildLoop md opts n3 fields added →
      (AddressField.A ∈ fields ∧
        ∃ k, k ∈ addrKeysFor n3 ∧ e = mkAddressLineEntry (requiredFieldsOf md) k) ∨
      (∃ f k, f ∈ fields ∧ mapFieldToKey f = some k ∧ e = mkFieldEntry md opts f k) := by
  intro fields
  induction fields with
  | nil => intro added e he; simp [buildLoop] at he
  | cons f0 rest ih =>
    intro added e he
    have step : ∀ added2, e ∈ buildLoop md opts n3 rest added2 →
        (AddressField.A ∈ f0 :: rest ∧
          ∃ k, k ∈ addrKeysFor n3 ∧ e = mkAddressLineEntry (requiredFieldsOf md) k) ∨
        (∃ f k, f ∈ f0 :: rest ∧ mapFieldToKey f = some k ∧ e = mkFieldEntry md opts f k) := by
      intro added2 hmem
      rcases ih added2 e hmem with ⟨hA, h⟩ | ⟨f, k, hf, hk, hek⟩
      · exact Or.inl ⟨List.mem_cons_of_mem _ hA, h⟩
      · exact Or.inr ⟨f, k, List.mem_cons_of_mem _ hf, hk, hek⟩
    cases f0 with
    | A =>
      rw [buildLoop, if_pos rfl] at he
      simp only at he
      rcases List.mem_append.mp he with h1 | h2
      · obtain ⟨k, hkks, hek⟩ := addAddressLines_fst_mem _ _ _ _ h1
        exact Or.inl ⟨List.mem_cons_self _ _, k, hkks, hek⟩
      · exact step _ h2
    | N =>
      by_cases hs : opts.showName
      · rw [buildLoop] at he
        simp only [reduceCtorEq, if_false, hs, and_false, Bool.true_eq_false, and_true,
          false_and] at he
        rcases List.mem_cons.mp he with he0 | heRest
        · exact Or.inr ⟨AddressField.N, AddressKey.name, List.mem_cons_self _ _, rfl, he0⟩
        · exact step _ heRest
      · rw [buildLoop] at he
        simp only [reduceCtorEq, if_false, eq_self_iff_true, true_and,
          Bool.not_eq_true] at he
        rw [if_pos (by simp [Bool.eq_false_iff.mpr hs])] at he
        exact step _ he
    | O =>
      by_cases hs : opts.showOrganization
      · rw [buildLoop] at he
        simp only [reduceCtorEq, if_false, hs, and_false, Bool.true_eq_false, and_true,
          false_and] at he
        rcases List.mem_cons.mp he with he0 | heRest
        · exact Or.inr ⟨AddressField.O, AddressKey.organization, List.mem_cons_self _ _, rfl, he0⟩
        · exact step _ heRest
      · rw [buildLoop] at he
        simp only [reduceCtorEq, if_false, eq_self_iff_true, true_and,
          Bool.not_eq_true, false_and] at he
        rw [if_pos (by simp [Bool.eq_false_iff.mpr hs])] at he
        exact step _ he
    | C =>
      rw [buildLoop] at he
      simp only [reduceCtorEq, if_false, false_and] at he
      rcases List.mem_cons.mp he with he0 | heRest
      · exact Or.inr ⟨AddressField.C, AddressKey.city, List.mem_cons_self _ _, rfl, he0⟩
      · exact step _ heRest
    | S =>
      rw [buildLoop] at he
      simp only [reduceCtorEq, if_false, false_and] at he
      rcases List.mem_cons.mp he with he0 | heRest
      · exact Or.inr ⟨AddressField.S, AddressKey.administrativeArea, List.mem_cons_self _ _, rfl, he0⟩
      · exact step _ heRest
    | Z =>
      rw [buildLoop] at he
      simp only [reduceCtorEq, if_false, false_and] at he
      rcases List.mem_cons.mp he with he0 | heRest
      · exact Or.inr ⟨AddressField.Z, AddressKey.postalCode, List.mem_cons_self _ _, rfl, he0⟩
      · exact step _ heRest
    | X =>
      rw [buildLoop] at he
      simp only [reduceCtorEq, if_false, false_and] at he
      rcases List.mem_cons.mp he with he0 | heRest
      · exact Or.inr ⟨AddressField.X, AddressKey.sortingCode, List.mem_cons_self _ _, rfl, he0⟩
      · exact step _ heRest
    | D =>
      rw [buildLoop] at he
      simp only [reduceCtorEq, if_false, false_and] at he
      rcases List.mem_cons.mp he with he0 | heRest
      · exact Or.inr ⟨AddressField.D, AddressKey.dependentLocality, List.mem_cons_self _ _, rfl, he0⟩
      · exact step _ heRest

/-- A field letter that emits an entry for key `k` maps to `k`. -/
theorem emitsKey_map : ∀ (opts : BuildOptions) (k : AddressKey) (f : AddressField),
    emitsKey opts k f = true → mapFieldToKey f = some k := by
  decide

/-- When a letter is neither the address-line letter nor skipped by the
options, its emission test reduces to the key comparison. -/
theorem emitsKey_of_push (opts : BuildOptions) (k : AddressKey) (f0 : AddressField)
    (k2 : AddressKey) (hmap : mapFieldToKey f0 = some k2)
    (hN : f0 = AddressField.N → opts.showName = true)
    (hO : f0 = AddressField.O → opts.showOrganization = true) :
    emitsKey opts k f0 = decide (k2 = k) := by
  unfold emitsKey
  rw [hmap]
  by_cases h1 : f0 = AddressField.N
  · simp [h1, hN h1]
  · by_cases h2 : f0 = AddressField.O
    · simp [h2, hO h2]
    · simp [h1, h2]

/-- Counting step for a pushed generic entry, assuming the head letter does
not recur in the tail. -/
theorem countKey_push (md : GoogleAddressMetadata) (opts : BuildOptions) (n3 : Bool)
    (k : AddressKey) (f0 : AddressField) (k2 : AddressKey) (rest : List AddressField)
    (added : List AddressKey)
    (hmap : mapFieldToKey f0 = some k2)
    (hnd : ¬ f0 ∈ rest)
    (hN : f0 = AddressField.N → opts.showName = true)
    (hO : f0 = AddressField.O → opts.showOrganization = true)
    (hIH : countKey k (buildLoop md opts n3 rest added) =
      if rest.any (emitsKey opts k) then 1 else 0) :
    countKey k (mkFieldEntry md opts f0 k2 :: buildLoop md opts n3 rest added) =
      if (f0 :: rest).any (emitsKey opts k) then 1 else 0 := by
  rw [countKey_cons, hIH, mkFieldEntry_key, List.any_cons,
    emitsKey_of_push opts k f0 k2 hmap hN hO]
  by_cases hk2 : k2 = k
  · subst hk2
    have hrest : rest.any (emitsKey opts k2) = false := by
      rw [List.any_eq_false]
      intro f' hf' hcontra
      have hmap' : mapFieldToKey f' = some k2 := emitsKey_map _ _ _ hcontra
      have hff : f' = f0 := mapFieldToKey_inj f' f0 k2 hmap' hmap
      exact hnd (hff ▸ hf')
    simp [hrest]
  · simp [hk2]

/-- Exact count of entries with a non-address-line key produced by the
builder loop on a duplicate-free field list: one when some letter emits the
key, zero otherwise. -/
theorem buildLoop_countKey_simple (md : GoogleAddressMetadata) (opts : BuildOptions)
    (n3 : Bool) (k : AddressKey)
    (hkaddr : ¬ (k = AddressKey.addressLine1 ∨ k = AddressKey.addressLine2
      ∨ k = AddressKey.addressLine3)) :
    ∀ (fields : List AddressField) (added : List AddressKey), fields.Nodup →
      countKey k (buildLoop md opts n3 fields added) =
        if fields.any (emitsKey opts k) then 1 else 0 := by
  intro fields
  induction fields with
  | nil => intro added _; simp [buildLoop, countKey_nil]
  | cons f0 rest ih =>
    intro added hnd
    have hnd' : rest.Nodup := hnd.of_cons
    have hf0 : ¬ f0 ∈ rest := (List.nodup_cons.mp hnd).1
    cases f0 with
    | A =>
      rw [buildLoop, if_pos rfl]
      simp only
      rw [countKey_append]
      have h0 : countKey k
          (addAddressLines (requiredFieldsOf md) (addrKeysFor n3) added).1 = 0 := by
        rw [countKey_eq_zero]
        intro e he
        obtain ⟨k2, hk2, hek⟩ := addAddressLines_fst_mem _ _ _ _ he
        have hk2cases : k2 = AddressKey.addressLine1 ∨ k2 = AddressKey.addressLine2
            ∨ k2 = AddressKey.addressLine3 := by
          cases n3 with
          | false =>
            have h2 : k2 = AddressKey.addressLine1 ∨ k2 = AddressKey.addressLine2 := by
              simpa [addrKeysFor] using hk2
            exact h2.imp id Or.inl
          | true => simpa [addrKeysFor] using hk2
        rw [hek, mkAddressLineEntry_key]
        intro hkk
        exact hkaddr (hkk ▸ hk2cases)
      rw [h0, ih _ hnd', List.any_cons]
      have hA : emitsKey opts k AddressField.A = false := rfl
      simp [hA]
    | N =>
      by_cases hs : opts.showName
      · rw [buildLoop]
        simp only [reduceCtorEq, if_false, hs, and_false, Bool.true_eq_false, and_true,
          false_and]
        exact countKey_push md opts n3 k AddressField.N AddressKey.name rest added rfl hf0
          (fun _ => hs) (fun h => absurd h (by decide)) (ih _ hnd')
      · have hs' : opts.showName = false := by simpa using hs
        rw [buildLoop]
        simp only [reduceCtorEq, if_false, eq_self_iff_true, true_and, Bool.not_eq_true]
        rw [if_pos (by simp [hs'])]
        rw [ih _ hnd', List.any_cons]
        have hN : emitsKey opts k AddressField.N = false := by
          simp [emitsKey, mapFieldToKey, hs']
        simp [hN]
    | O =>
      by_cases hs : opts.showOrganization
      · rw [buildLoop]
        simp only [reduceCtorEq, if_false, hs, and_false, Bool.true_eq_false, and_true,
          false_and]
        exact countKey_push md opts n3 k AddressField.O AddressKey.organization rest added rfl hf0
          (fun h => absurd h (by decide)) (fun _ => hs) (ih _ hnd')
      · have hs' : opts.showOrganization = false := by simpa using hs
        rw [buildLoop]
        simp only [reduceCtorEq, if_false, eq_self_iff_true, true_and, Bool.not_eq_true,
          false_and]
        rw [if_pos (by simp [hs'])]
        rw [ih _ hnd', List.any_cons]
        have hO : emitsKey opts k AddressField.O = false := by
          simp [emitsKey, mapFieldToKey, hs']
        simp [hO]
    | C =>
      rw [buildLoop]
      simp only [reduceCtorEq, if_false, false_and]
      exact countKey_push md opts n3 k AddressField.C AddressKey.city rest added rfl hf0
        (fun h => absurd h (by decide)) (fun h => absurd h (by decide)) (ih _ hnd')
    | S =>
      rw [buildLoop]
      simp only [reduceCtorEq, if_false, false_and]
      exact countKey_push md opts n3 k AddressField.S AddressKey.administrativeArea rest added
        rfl hf0 (fun h => absurd h (by decide)) (fun h => absurd h (by decide)) (ih _ hnd')
    | Z =>
      rw [buildLoop]
      simp only [reduceCtorEq, if_false, false_and]
      exact countKey_push md opts n3 k AddressField.Z AddressKey.postalCode rest added rfl hf0
        (fun h => absurd h (by decide)) (fun h => absurd h (by decide)) (ih _ hnd')
    | X =>
      rw [buildLoop]
      simp only [reduceCtorEq, if_false, false_and]
      exact countKey_push md opts n3 k AddressField.X AddressKey.sortingCode rest added rfl hf0
        (fun h => absurd h (by decide)) (fun h => absurd h (by decide)) (ih _ hnd')
    | D =>
      rw [buildLoop]
      simp only [reduceCtorEq, if_false, false_and]
      exact countKey_push md opts n3 k AddressField.D AddressKey.dependentLocality rest added
        rfl hf0 (fun h => absurd h (by decide)) (fun h => absurd h (by decide)) (ih _ hnd')

/-- Without the address-line letter, the builder loop yields no entry whose
key never arises from the field-to-key mapping (in particular no
address-line entry). -/
theorem buildLoop_countKey_noA (md : GoogleAddressMetadata) (opts : BuildOptions)
    (n3 : Bool) (k : AddressKey) (hknomap : ∀ f, ¬ mapFieldToKey f = some k)
    (fields : List AddressField) (added : List AddressKey)
    (hA : ¬ AddressField.A ∈ fields) :
    countKey k (buildLoop md opts n3 fields added) = 0 := by
  rw [countKey_eq_zero]
  intro e he
  rcases buildLoop_shape md opts n3 fields added e he with ⟨hAmem, _⟩ | ⟨f, k2, _, hk2, hek⟩
  · exact absurd hAmem hA
  · rw [hek, mkFieldEntry_key]
    intro hkk
    exact hknomap f (hkk ▸ hk2)

/-- Exact count of entries with a given address-line key produced by the
builder loop on a duplicate-free field list. -/
theorem buildLoop_countKey_addr (md : GoogleAddressMetadata) (opts : BuildOptions)
    (n3 : Bool) (k : AddressKey) (hknomap : ∀ f, ¬ mapFieldToKey f = some k) :
    ∀ (fields : List AddressField) (added : List AddressKey), fields.Nodup →
      countKey k (buildLoop md opts n3 fields added) =
        if AddressField.A ∈ fields ∧ k ∈ addrKeysFor n3 ∧ ¬ k ∈ added then 1 else 0 := by
  intro fields
  induction fields with
  | nil => intro added _; simp [buildLoop, countKey_nil]
  | cons f0 rest ih =>
    intro added hnd
    have hnd' : rest.Nodup := hnd.of_cons
    have hf0 : ¬ f0 ∈ rest := (List.nodup_cons.mp hnd).1
    cases f0 with
    | A =>
      rw [buildLoop, if_pos rfl]
      simp only
      rw [countKey_append]
      have haddrnd : (addrKeysFor n3).Nodup := by cases n3 <;> decide
      rw [addAddressLines_countKey _ _ _ _ haddrnd,
        buildLoop_countKey_noA md opts n3 k hknomap rest _ hf0, add_zero]
      simp [List.mem_cons]
    | N =>
      have hmemiff : (AddressField.A ∈ AddressField.N :: rest) = (AddressField.A ∈ rest) := by
        simp [List.mem_cons]
      by_cases hs : opts.showName
      · rw [buildLoop]
        simp only [reduceCtorEq, if_false, hs, and_false, Bool.true_eq_false, and_true,
          false_and]
        simp only [mapFieldToKey]
        rw [countKey_cons, mkFieldEntry_key,
          if_neg (fun h => hknomap AddressField.N (by simpa [mapFieldToKey] using h)),
          add_zero, ih _ hnd']
        simp only [hmemiff]
      · have hs' : opts.showName = false := by simpa using hs
        rw [buildLoop]
        simp only [reduceCtorEq, if_false, eq_self_iff_true, true_and, Bool.not_eq_true]
        rw [if_pos (by simp [hs']), ih _ hnd']
        simp only [hmemiff]
    | O =>
      have hmemiff : (AddressField.A ∈ AddressField.O :: rest) = (AddressField.A ∈ rest) := by
        simp [List.mem_cons]
      by_cases hs : opts.showOrganization
      · rw [buildLoop]
        simp only [reduceCtorEq, if_false, hs, and_false, Bool.true_eq_false, and_true,
          false_and]
        simp only [mapFieldToKey]
        rw [countKey_cons, mkFieldEntry_key,
          if_neg (fun h => hknomap AddressField.O (by simpa [mapFieldToKey] using h)),
          add_zero, ih _ hnd']
        simp only [hmemiff]
      · have hs' : opts.showOrganization = false := by simpa using hs
        rw [buildLoop]
        simp only [reduceCtorEq, if_false, eq_self_iff_true, true_and, Bool.not_eq_true,
          false_and]
        rw [if_pos (by simp [hs']), ih _ hnd']
        simp only [hmemiff]
    | C =>
      have hmemiff : (AddressField.A ∈ AddressField.C :: rest) = (AddressField.A ∈ rest) := by
        simp [List.mem_cons]
      rw [buildLoop]
      simp only [reduceCtorEq, if_false, false_and]
      simp only [mapFieldToKey]
      rw [countKey_cons, mkFieldEntry_key,
        if_neg (fun h => hknomap AddressField.C (by simpa [mapFieldToKey] using h)),
        add_zero, ih _ hnd']
      simp only [hmemiff]
    | S =>
      have hmemiff : (AddressField.A ∈ AddressField.S :: rest) = (AddressField.A ∈ rest) := by
        simp [List.mem_cons]
      rw [buildLoop]
      simp only [reduceCtorEq, if_false, false_and]
      simp only [mapFieldToKey]
      rw [countKey_cons, mkFieldEntry_key,
        if_neg (fun h => hknomap AddressField.S (by simpa [mapFieldToKey] using h)),
        add_zero, ih _ hnd']
      simp only [hmemiff]
    | Z =>
      have hmemiff : (AddressField.A ∈ AddressField.Z :: rest) = (AddressField.A ∈ rest) := by
        simp [List.mem_cons]
      rw [buildLoop]
      simp only [reduceCtorEq, if_false, false_and]
      simp only [mapFieldToKey]
      rw [countKey_cons, mkFieldEntry_key,
        if_neg (fun h => hknomap AddressField.Z (by simpa [mapFieldToKey] using h)),
        add_zero, ih _ hnd']
      simp only [hmemiff]
    | X =>
      have hmemiff : (AddressField.A ∈ AddressField.X :: rest) = (AddressField.A ∈ rest) := by
        simp [List.mem_cons]
      rw [buildLoop]
      simp only [reduceCtorEq, if_false, false_and]
      simp only [mapFieldToKey]
      rw [countKey_cons, mkFieldEntry_key,
        if_neg (fun h => hknomap AddressField.X (by simpa [mapFieldToKey] using h)),
        add_zero, ih _ hnd']
      simp only [hmemiff]
    | D =>
      have hmemiff : (AddressField.A ∈ AddressField.D :: rest) = (AddressField.A ∈ rest) := by
        simp [List.mem_cons]
      rw [buildLoop]
      simp only [reduceCtorEq, if_false, false_and]
      simp only [mapFieldToKey]
      rw [countKey_cons, mkFieldEntry_key,
        if_neg (fun h => hknomap AddressField.D (by simpa [mapFieldToKey] using h)),
        add_zero, ih _ hnd']
      simp only [hmemiff]

/-! ### Lemmas about the validator -/

/-- One step of the validator loop is exactly the per-entry error function. -/
theorem validateLoop_cons (value : AddressValue) (field : FieldConfig)
    (rest : List FieldConfig) :
    validateLoop value (field :: rest) =
      match entryError value field with
      | none => validateLoop value rest
      | some e => e :: validateLoop value rest := by
  rw [validateLoop, entryError]
  split_ifs <;> rfl

/-- The validator's error list is the per-entry error of each schema entry,
in schema order. -/
theorem validateLoop_eq_filterMap (value : AddressValue) :
    ∀ fields : List FieldConfig,
      validateLoop value fields = fields.filterMap (entryError value) := by
  intro fields
  induction fields with
  | nil => rfl
  | cons field rest ih =>
    rw [validateLoop_cons, List.filterMap_cons]
    cases entryError value field <;> simp [ih]

/-- On an all-visible schema the visibility filter never fires. -/
theorem validateLoop_noVis_eq (value : AddressValue) :
    ∀ fields : List FieldConfig, (∀ e ∈ fields, e.visible = true) →
      validateLoop value fields = validateLoopNoVis value fields := by
  intro fields
  induction fields with
  | nil => intro _; rfl
  | cons field rest ih =>
    intro h
    have hv : field.visible = true := h field (List.mem_cons_self _ _)
    have hrest := ih (fun e he => h e (List.mem_cons_of_mem _ he))
    rw [validateLoop, validateLoopNoVis, if_neg (by simp [hv])]
    split_ifs <;> simp [hrest]

/-! ### Lemmas about subdivisions -/

theorem jsIndexOr_single_empty (i : Nat) (d : String) : jsIndexOr [""] i d = d := by
  cases i <;> simp [jsIndexOr]

/-- When subdivision keys and names are both present, `parseSubdivisions`
computes exactly the option list the specification describes. -/
theorem parseSubdivisions_eq_spec (md : GoogleAddressMetadata)
    (hk : jsTruthyStr md.sub_keys = true) (hn : jsTruthyStr md.sub_names = true) :
    parseSubdivisions md = some (specSubdivisionOptions md) := by
  unfold parseSubdivisions specSubdivisionOptions
  rw [hk, hn]
  simp only [Bool.not_true, Bool.or_self, Bool.false_eq_true, if_false]
  cases hl : md.sub_lnames with
  | none => simp [hl, jsTruthyStr]
  | some s =>
    by_cases hs : s = ""
    · subst hs
      have h0 : jsTruthyStr (some "") = false := rfl
      simp only [hl, h0, Bool.false_eq_true, if_false, Option.isSome_some, if_true,
        Option.getD_some]
      congr 1
      apply List.map_congr_left
      rintro ⟨i, key⟩ hmem
      have hsplit : splitTilde "" = [""] := rfl
      simp [hsplit, jsIndexOr_single_empty]
    · simp [hl, jsTruthyStr, hs]

/-! ### Lemmas about the regex model -/

/-- Claim C6: `validatePostalCode` accepts every value (including the empty
string) when the pattern is absent or empty, and rejects an empty value
against a non-empty pattern. -/
theorem claim_C6 :
    (∀ v : String, validatePostalCode v none = true) ∧
    (∀ v : String, validatePostalCode v (some "") = true) ∧
    (∀ p : String, ¬ p = "" → validatePostalCode "" (some p) = false) := by
  refine ⟨fun v => rfl, fun v => rfl, fun p hp => ?_⟩
  simp [validatePostalCode, jsTruthyStr, hp]

/-- Claim C6 witness: the clauses of C6 instantiated at concrete inputs. -/
theorem claim_C6_witness :
    validatePostalCode "anything" none = true ∧ validatePostalCode "" (some "A") = false :=
  ⟨claim_C6.1 "anything", claim_C6.2.2 "A" (by decide)⟩

/-- Claim C7: `validateAddress` records one error per failing visible entry
in schema order — the required-field message (which suppresses the pattern
check) for a required entry whose value is missing or blank, the format
message for a failing postal code — the result is valid exactly when no
error was recorded, and a schema with one required city field and a value
missing the city yields an invalid result whose only error is
`City is required`. -/
theorem claim_C7 :
    (∀ (v : AddressValue) (fields : List FieldConfig),
        (validateAddress v fields).errors = fields.filterMap (entryError v)) ∧
    (∀ (v : AddressValue) (fields : List FieldConfig),
        (validateAddress v fields).valid = true ↔ (validateAddress v fields).errors = []) ∧
    validateAddress emptyAddressValue [requiredCityField] =
      { valid := false, errors := ["City is required"] } := by
  refine ⟨fun v fields => ?_, fun v fields => ?_, by decide⟩
  · exact validateLoop_eq_filterMap v fields
  · simp [validateAddress, List.length_eq_zero]

/-- Claim C7 witness: the error-list clause of C7 instantiated at a concrete
value and schema. -/
theorem claim_C7_witness :
    (validateAddress emptyAddressValue [requiredCityField]).errors =
      List.filterMap (entryError emptyAddressValue) [requiredCityField] :=
  claim_C7.1 emptyAddressValue [requiredCityField]

/-- Claim C1 counterexample: on a metadata record whose format string is
`%N` (and default options), the schema contains neither an `addressLine1`
entry nor a `city` entry, refuting the claim for arbitrary metadata. -/
theorem claim_C1_counterexample :
    ¬ (countKey AddressKey.addressLine1 (buildFieldConfig mdFmtNameOnly defaultOptions) = 1 ∧
       countKey AddressKey.city (buildFieldConfig mdFmtNameOnly defaultOptions) = 1) := by
  decide

/-- Claim C1 (amended): whenever the effective format string (the metadata's
one, or the default when it is absent or empty) contains the address-line
and city placeholders, the schema contains exactly one `addressLine1` entry
and exactly one `city` entry, for every options value. -/
theorem claim_C1 (md : GoogleAddressMetadata) (opts : BuildOptions)
    (hA : AddressField.A ∈ parseFmtString (effectiveFmt md))
    (hC : AddressField.C ∈ parseFmtString (effectiveFmt md)) :
    countKey AddressKey.addressLine1 (buildFieldConfig md opts) = 1 ∧
    countKey AddressKey.city (buildFieldConfig md opts) = 1 := by
  have hnd := parseFmtString_nodup (effectiveFmt md)
  constructor
  · rw [buildFieldConfig, buildLoop_countKey_addr md opts _ _ (by decide) _ _ hnd]
    have h1 : AddressKey.addressLine1 ∈ addrKeysFor (needsAddressLine3 md) := by
      cases needsAddressLine3 md <;> decide
    simp [hA, h1]
  · rw [buildFieldConfig, buildLoop_countKey_simple md opts _ _ (by decide) _ _ hnd]
    have hany : (parseFmtString (effectiveFmt md)).any (emitsKey opts AddressKey.city) = true := by
      rw [List.any_eq_true]
      exact ⟨AddressField.C, hC, by simp [emitsKey, mapFieldToKey]⟩
    simp [hany]

/-- Claim C1 witness: the amended claim instantiated on the empty metadata
record, whose effective format string is the default template. -/
theorem claim_C1_witness :
    countKey AddressKey.addressLine1 (buildFieldConfig mdEmptyMeta defaultOptions) = 1 ∧
    countKey AddressKey.city (buildFieldConfig mdEmptyMeta defaultOptions) = 1 :=
  claim_C1 mdEmptyMeta defaultOptions (by decide) (by decide)

/-- Claim C2 counterexample: a metadata record providing subdivision keys
but no subdivision names yields an administrative-area entry carrying no
option list, refuting the claim that subdivision keys alone suffice. -/
theorem claim_C2_counterexample :
    ∃ e ∈ buildFieldConfig mdSubKeysNoNames defaultOptions,
      e.key = AddressKey.administrativeArea ∧ e.options = none := by
  decide

/-- Claim C2 (amended): whenever the metadata provides both subdivision keys
and subdivision names (truthy strings), every administrative-area entry of
the schema carries exactly the subdivision option list the specification
describes, and the entry exists whenever the administrative-area placeholder
occurs in the effective format string. -/
theorem claim_C2 (md : GoogleAddressMetadata) (opts : BuildOptions)
    (hk : jsTruthyStr md.sub_keys = true) (hn : jsTruthyStr md.sub_names = true) :
    (∀ e ∈ buildFieldConfig md opts, e.key = AddressKey.administrativeArea →
        e.options = some (specSubdivisionOptions md)) ∧
    (AddressField.S ∈ parseFmtString (effectiveFmt md) →
        ∃ e ∈ buildFieldConfig md opts, e.key = AddressKey.administrativeArea) := by
  constructor
  · intro e he hekey
    rcases buildLoop_shape md opts _ _ _ e he with ⟨_, k, hkmem, hek⟩ | ⟨f, k, hf, hkmap, hek⟩
    · exfalso
      subst hek
      rw [mkAddressLineEntry_key] at hekey
      subst hekey
      revert hkmem
      cases needsAddressLine3 md <;> decide
    · subst hek
      rw [mkFieldEntry_key] at hekey
      subst hekey
      have hfS : f = AddressField.S := mapFieldToKey_inj f AddressField.S _ hkmap rfl
      subst hfS
      show (mkFieldEntry md opts AddressField.S AddressKey.administrativeArea).options = _
      simp [mkFieldEntry, parseSubdivisions_eq_spec md hk hn]
  · intro hS
    rw [← countKey_pos, buildFieldConfig,
      buildLoop_countKey_simple md opts _ _ (by decide) _ _ (parseFmtString_nodup _)]
    have hany : (parseFmtString (effectiveFmt md)).any
        (emitsKey opts AddressKey.administrativeArea) = true := by
      rw [List.any_eq_true]
      exact ⟨AddressField.S, hS, by simp [emitsKey, mapFieldToKey]⟩
    simp [hany]

/-- Claim C2 witness: the amended claim instantiated on a record with
Latin-script subdivision keys and names and an `%S` format string. -/
theorem claim_C2_witness :
    ∃ e ∈ buildFieldConfig mdSubNames defaultOptions,
      e.key = AddressKey.administrativeArea :=
  (claim_C2 mdSubNames defaultOptions (by decide) (by decide)).2 (by decide)

/-- Claim C3: the postal-code label follows the record's zip name type
(pin, postal, zip, eircode, case-insensitively); when that is absent or
unrecognized it falls back by country code (US, IE, IN, case-insensitively)
and otherwise defaults to `Postal Code`; and every postal-code entry of a
built schema carries exactly this label. -/
theorem claim_C3 (md : GoogleAddressMetadata) :
    (md.zip_name_type.map sLower = some "pin" → getPostalLabel md = "PIN Code") ∧
    (md.zip_name_type.map sLower = some "postal" → getPostalLabel md = "Postal Code") ∧
    (md.zip_name_type.map sLower = some "zip" → getPostalLabel md = "ZIP Code") ∧
    (md.zip_name_type.map sLower = some "eircode" → getPostalLabel md = "Eircode") ∧
    (zipUnrecognized md → md.id.map sUpper = some "US" → getPostalLabel md = "ZIP Code") ∧
    (zipUnrecognized md → md.id.map sUpper = some "IE" → getPostalLabel md = "Eircode") ∧
    (zipUnrecognized md → md.id.map sUpper = some "IN" → getPostalLabel md = "PIN Code") ∧
    (zipUnrecognized md →
      ¬ (md.id.map sUpper = some "US" ∨ md.id.map sUpper = some "IE"
         ∨ md.id.map sUpper = some "IN") → getPostalLabel md = "Postal Code") ∧
    (∀ (opts : BuildOptions) (e : FieldConfig), e ∈ buildFieldConfig md opts →
      e.key = AddressKey.postalCode → e.label = getPostalLabel md) := by
  refine ⟨fun h => ?_, fun h => ?_, fun h => ?_, fun h => ?_, fun hu h => ?_, fun hu h => ?_,
    fun hu h => ?_, fun hu h => ?_, fun opts e he hekey => ?_⟩
  · simp [getPostalLabel, h]
  · simp [getPostalLabel, h]
  · simp [getPostalLabel, h]
  · simp [getPostalLabel, h]
  · simp only [zipUnrecognized, not_or] at hu
    simp [getPostalLabel, hu.1, hu.2.1, hu.2.2.1, hu.2.2.2, h]
  · simp only [zipUnrecognized, not_or] at hu
    simp only [not_or] at h
    simp [getPostalLabel, hu.1, hu.2.1, hu.2.2.1, hu.2.2.2, h]
  · simp only [zipUnrecognized, not_or] at hu
    simp [getPostalLabel, hu.1, hu.2.1, hu.2.2.1, hu.2.2.2, h]
  · simp only [zipUnrecognized, not_or] at hu
    simp only [not_or] at h
    simp [getPostalLabel, hu.1, hu.2.1, hu.2.2.1, hu.2.2.2, h.1, h.2.1, h.2.2]
  · rcases buildLoop_shape md opts _ _ _ e he with ⟨_, k, hkmem, hek⟩ | ⟨f, k, hf, hkmap, hek⟩
    · exfalso
      subst hek
      rw [mkAddressLineEntry_key] at hekey
      subst hekey
      revert hkmem
      cases needsAddressLine3 md <;> decide
    · subst hek
      rw [mkFieldEntry_key] at hekey
      subst hekey
      have hfZ : f = AddressField.Z := mapFieldToKey_inj f AddressField.Z _ hkmap rfl
      subst hfZ
      rfl

/-- Claim C3 witness: the zip-name-type clause at a record with type `PIN`
and the US fallback clause at a record with id `us`. -/
theorem claim_C3_witness :
    getPostalLabel mdZipPin = "PIN Code" ∧ getPostalLabel mdIdUS = "ZIP Code" :=
  ⟨(claim_C3 mdZipPin).1 (by decide), (claim_C3 mdIdUS).2.2.2.2.1 (by decide) (by decide)⟩

/-- Claim C4: an allow-listed country whose effective format string contains
the address-line placeholder gets an `addressLine3` entry; a country outside
the allow-list never does. -/
theorem claim_C4 (md : GoogleAddressMetadata) (opts : BuildOptions) :
    (needsAddressLine3 md = true → AddressField.A ∈ parseFmtString (effectiveFmt md) →
      ∃ e ∈ buildFieldConfig md opts, e.key = AddressKey.addressLine3) ∧
    (needsAddressLine3 md = false →
      ∀ e ∈ buildFieldConfig md opts, ¬ e.key = AddressKey.addressLine3) := by
  have hnd := parseFmtString_nodup (effectiveFmt md)
  constructor
  · intro h3 hA
    rw [← countKey_pos, buildFieldConfig,
      buildLoop_countKey_addr md opts _ _ (by decide) _ _ hnd]
    simp [hA, h3, addrKeysFor]
  · intro h3
    rw [← countKey_eq_zero, buildFieldConfig,
      buildLoop_countKey_addr md opts _ _ (by decide) _ _ hnd]
    simp [h3, addrKeysFor]

/-- Claim C4 witness: both clauses instantiated — Japan with the default
format string gets a third line, the empty record does not. -/
theorem claim_C4_witness :
    (∃ e ∈ buildFieldConfig mdJPNoFmt defaultOptions, e.key = AddressKey.addressLine3) ∧
    (∀ e ∈ buildFieldConfig mdEmptyMeta defaultOptions, ¬ e.key = AddressKey.addressLine3) :=
  ⟨(claim_C4 mdJPNoFmt defaultOptions).1 (by decide) (by decide),
   (claim_C4 mdEmptyMeta defaultOptions).2 (by decide)⟩

theorem string_data_nil : ("" : String).data = [] := rfl

theorem contains_nil_char (c : Char) : ([] : List Char).contains c = false := rfl

/-- Claim C8: every schema entry's required flag equals membership of its
source field letter in the required-fields string; among address-line
entries only `addressLine1` is ever required (exactly when `A` occurs in the
required-fields string); with no required-fields string nothing is
required. -/
theorem claim_C8 (md : GoogleAddressMetadata) (opts : BuildOptions) (e : FieldConfig)
    (he : e ∈ buildFieldConfig md opts) :
    (e.key = AddressKey.addressLine1 → e.required = (requiredFieldsOf md).contains 'A') ∧
    (e.key = AddressKey.addressLine2 → e.required = false) ∧
    (e.key = AddressKey.addressLine3 → e.required = false) ∧
    (e.key = AddressKey.name → e.required = (requiredFieldsOf md).contains 'N') ∧
    (e.key = AddressKey.organization → e.required = (requiredFieldsOf md).contains 'O') ∧
    (e.key = AddressKey.city → e.required = (requiredFieldsOf md).contains 'C') ∧
    (e.key = AddressKey.administrativeArea → e.required = (requiredFieldsOf md).contains 'S') ∧
    (e.key = AddressKey.postalCode → e.required = (requiredFieldsOf md).contains 'Z') ∧
    (e.key = AddressKey.sortingCode → e.required = (requiredFieldsOf md).contains 'X') ∧
    (e.key = AddressKey.dependentLocality → e.required = (requiredFieldsOf md).contains 'D') ∧
    (md.require = none → e.required = false) := by
  rcases buildLoop_shape md opts _ _ _ e he with ⟨_, k, hkmem, hek⟩ | ⟨f, k, hf, hkmap, hek⟩
  · have hk3 : k = AddressKey.addressLine1 ∨ k = AddressKey.addressLine2
        ∨ k = AddressKey.addressLine3 := by
      revert hkmem
      cases needsAddressLine3 md <;> simp [addrKeysFor] <;> tauto
    subst hek
    rcases hk3 with rfl | rfl | rfl <;>
      refine ⟨fun h => ?_, fun h => ?_, fun h => ?_, fun h => ?_, fun h => ?_, fun h => ?_,
        fun h => ?_, fun h => ?_, fun h => ?_, fun h => ?_, fun h => ?_⟩ <;>
      first
        | (simp [mkAddressLineEntry] at h; done)
        | (simp [mkAddressLineEntry]; done)
        | (simp [mkAddressLineEntry, requiredFieldsOf, h, string_data_nil, contains_nil_char];
            done)
  · subst hek
    cases f <;> simp only [mapFieldToKey, Option.some.injEq, reduceCtorEq] at hkmap <;>
      subst hkmap <;>
      refine ⟨fun h => ?_, fun h => ?_, fun h => ?_, fun h => ?_, fun h => ?_, fun h => ?_,
        fun h => ?_, fun h => ?_, fun h => ?_, fun h => ?_, fun h => ?_⟩ <;>
      first
        | (simp [mkFieldEntry] at h; done)
        | (simp [mkFieldEntry, fieldChar]; done)
        | (simp [mkFieldEntry, fieldChar, requiredFieldsOf, h, string_data_nil,
            contains_nil_char]; done)

/-- Claim C8 witness: the city clause instantiated at the city entry of the
default schema of the empty metadata record. -/
theorem claim_C8_witness :
    entryCityDefault.required = (requiredFieldsOf mdEmptyMeta).contains 'C' :=
  (claim_C8 mdEmptyMeta defaultOptions entryCityDefault (by decide)).2.2.2.2.2.1 rfl

/-- Claim C9 counterexample: an allow-listed country (Japan) with a missing
format string yields a schema with an extra `addressLine3` entry, so the
claimed six-entry shape fails. -/
theorem claim_C9_counterexample :
    mdJPNoFmt.fmt = none ∧
    ¬ (buildFieldConfig mdJPNoFmt { showName := true, showOrganization := true }).map
        (fun e => e.key) =
      [AddressKey.name, AddressKey.organization, AddressKey.addressLine1,
       AddressKey.addressLine2, AddressKey.city, AddressKey.postalCode] := by
  decide

/-- Claim C9 (amended): with an empty or missing format string the builder
uses the default template (name, organization, address line, city, postal
code placeholders), so with both display options enabled the schema keys are
name, organization, addressLine1, addressLine2, city, postalCode in that
order — with an additional `addressLine3` entry after `addressLine2` for
countries on the three-line allow-list. -/
theorem claim_C9 (md : GoogleAddressMetadata) (hfmt : md.fmt = none ∨ md.fmt = some "") :
    parseFmtString defaultFmt =
      [AddressField.N, AddressField.O, AddressField.A, AddressField.C, AddressField.Z] ∧
    effectiveFmt md = defaultFmt ∧
    (buildFieldConfig md { showName := true, showOrganization := true }).map (fun e => e.key) =
      (if needsAddressLine3 md then
        [AddressKey.name, AddressKey.organization, AddressKey.addressLine1,
         AddressKey.addressLine2, AddressKey.addressLine3, AddressKey.city,
         AddressKey.postalCode]
       else
        [AddressKey.name, AddressKey.organization, AddressKey.addressLine1,
         AddressKey.addressLine2, AddressKey.city, AddressKey.postalCode]) := by
  have heff : effectiveFmt md = defaultFmt := by
    rcases hfmt with h | h <;> simp [effectiveFmt, jsTruthyStr, h]
  refine ⟨by decide, heff, ?_⟩
  rw [buildFieldConfig, heff]
  cases needsAddressLine3 md <;> rfl

/-- Claim C9 witness: the amended claim instantiated on the empty metadata
record. -/
theorem claim_C9_witness :
    parseFmtString defaultFmt =
      [AddressField.N, AddressField.O, AddressField.A, AddressField.C, AddressField.Z] ∧
    effectiveFmt mdEmptyMeta = defaultFmt ∧
    (buildFieldConfig mdEmptyMeta { showName := true, showOrganization := true }).map
        (fun e => e.key) =
      (if needsAddressLine3 mdEmptyMeta then
        [AddressKey.name, AddressKey.organization, AddressKey.addressLine1,
         AddressKey.addressLine2, AddressKey.addressLine3, AddressKey.city,
         AddressKey.postalCode]
       else
        [AddressKey.name, AddressKey.organization, AddressKey.addressLine1,
         AddressKey.addressLine2, AddressKey.city, AddressKey.postalCode]) :=
  claim_C9 mdEmptyMeta (Or.inl rfl)

/-- Claim C10: every entry of a built schema is visible, so the visibility
filter of `validateAddress` never skips an entry of a builder-produced
schema: validation agrees with the validator that ignores visibility. -/
theorem claim_C10 (md : GoogleAddressMetadata) (opts : BuildOptions) :
    (∀ e ∈ buildFieldConfig md opts, e.visible = true) ∧
    (∀ v : AddressValue, validateAddress v (buildFieldConfig md opts) =
      validateAddressIgnoringVisibility v (buildFieldConfig md opts)) := by
  have hvis : ∀ e ∈ buildFieldConfig md opts, e.visible = true := by
    intro e he
    rcases buildLoop_shape md opts _ _ _ e he with ⟨_, k, _, hek⟩ | ⟨f, k, _, _, hek⟩ <;>
      subst hek <;> rfl
  refine ⟨hvis, fun v => ?_⟩
  have h := validateLoop_noVis_eq v (buildFieldConfig md opts) hvis
  simp [validateAddress, validateAddressIgnoringVisibility, h]

/-- Claim C10 witness: both clauses instantiated on the empty metadata
record's schema. -/
theorem claim_C10_witness :
    entryCityDefault.visible = true ∧
    validateAddress emptyAddressValue (buildFieldConfig mdEmptyMeta defaultOptions) =
      validateAddressIgnoringVisibility emptyAddressValue
        (buildFieldConfig mdEmptyMeta defaultOptions) :=
  ⟨(claim_C10 mdEmptyMeta defaultOptions).1 entryCityDefault (by decide),
   (claim_C10 mdEmptyMeta defaultOptions).2 emptyAddressValue⟩
